import Mathlib

/-!
Verification of the wBus geometric snapping core.

This file embeds, over exact rational arithmetic, the snapping and
direction-resolution functions of the wBus repository:

* `snapPointToPolyline` / `snapToPolyline`
  (src/Vision/src/features/map/utils/geoUtils.ts and
   src/Vision/src/features/bus/utils/polyUtils.ts),
* `splitByTurnIndex` (src/Vision/src/features/bus/utils/polyUtils.ts),
* `shouldSwapPolylines` (src/Vision/src/features/bus/utils/polylineDirection.ts),
* the best-match candidate selection of `getDirection`
  (src/Vision/src/features/bus/hooks/useBusDirection.ts),
* `getSnappedPosition` (src/Vision/src/features/bus/utils/getSnappedPos.ts),
* `CacheManager` (the generic keyed async cache).

JavaScript numbers are modelled as `ℚ` (the algorithms use only field
operations and comparisons on coordinates).  The transcendental helpers
(`calculateBearing`, the Haversine distance) involve trigonometry and are
passed as abstract function parameters `bear` / `dist`: every theorem below
holds for an arbitrary choice of these functions, which is exactly the role
they play in the control flow of the code.
-/

namespace WBus

/-- Coordinate: pair [latitude, longitude], modelled as exact rationals. -/
abbrev Coordinate := ℚ × ℚ

/-! ### geoUtils.ts : snapPointToPolyline -/

/-- Result record of `snapPointToPolyline` (geoUtils.ts `SnapResult`). -/
structure SnapResult where
  position : Coordinate
  angle : ℚ
  segmentIndex : ℕ
  t : ℚ
deriving DecidableEq, Repr

/-- Options record of `snapPointToPolyline` (geoUtils.ts `SnapOptions`).
`segmentHint` absent or non-finite is modelled as `none`. -/
structure SnapOptions where
  segmentHint : Option ℚ := none
  searchRadius : ℚ := 0
deriving Repr

/-- geoUtils.ts `clampIndex`: `Math.max(0, Math.min(value, max))`. -/
def clampIndex (value maxv : ℤ) : ℤ :=
  max 0 (min value maxv)

/-- Segment start point `polyline[i]` (out-of-range reads never occur on the
index ranges the scan uses; `getD` supplies a dummy default). -/
def segA (line : List Coordinate) (i : ℕ) : Coordinate :=
  line.getD i (0, 0)

/-- Segment end point `polyline[i + 1]`. -/
def segB (line : List Coordinate) (i : ℕ) : Coordinate :=
  line.getD (i + 1) (0, 0)

/-- Body of one loop iteration of `snapPointToPolyline`: the clamped
projection parameter `t` of `point` onto segment `i`
(`ab2 > 0 ? clamp01(dot / ab2) : 0`). -/
def tAt (point : Coordinate) (line : List Coordinate) (i : ℕ) : ℚ :=
  let A := segA line i
  let B := segB line i
  let abx := B.1 - A.1
  let aby := B.2 - A.2
  let ab2 := abx * abx + aby * aby
  if 0 < ab2 then
    max 0 (min 1 (((point.1 - A.1) * abx + (point.2 - A.2) * aby) / ab2))
  else 0

/-- Projected point `[projX, projY] = A + AB * t` for segment `i`. -/
def projAt (point : Coordinate) (line : List Coordinate) (i : ℕ) : Coordinate :=
  let A := segA line i
  let B := segB line i
  (A.1 + (B.1 - A.1) * tAt point line i, A.2 + (B.2 - A.2) * tAt point line i)

/-- Squared distance `dSq` from `point` to its projection onto segment `i`. -/
def dSqAt (point : Coordinate) (line : List Coordinate) (i : ℕ) : ℚ :=
  let p := projAt point line i
  (point.1 - p.1) * (point.1 - p.1) + (point.2 - p.2) * (point.2 - p.2)

/-- Mutable loop state of the `snapPointToPolyline` scan.  `bestDistSq = none`
models the initial `Infinity`. -/
structure ScanState where
  bestDistSq : Option ℚ
  bestPos : Coordinate
  bestIdx : ℕ
  bestT : ℚ
  bestA : Coordinate
  bestB : Coordinate
deriving DecidableEq, Repr

/-- Comparison `dSq < bestDistSq` against the running best (`Infinity` when
no segment has been examined yet). -/
def improves : Option ℚ → ℚ → Bool
  | none, _ => true
  | some b, d => decide (d < b)

/-- Loop state immediately after segment `i` has been recorded as the best. -/
def mkState (point : Coordinate) (line : List Coordinate) (i : ℕ) : ScanState :=
  { bestDistSq := some (dSqAt point line i)
    bestPos := projAt point line i
    bestIdx := i
    bestT := tAt point line i
    bestA := segA line i
    bestB := segB line i }

/-- One iteration of the scan loop of `snapPointToPolyline`. -/
def scanStep (point : Coordinate) (line : List Coordinate)
    (s : ScanState) (i : ℕ) : ScanState :=
  if improves s.bestDistSq (dSqAt point line i) then mkState point line i else s

/-- Loop state before the first iteration (`bestDistSq = Infinity`,
`bestPos = polyline[0]`, `bestSegment = {A: polyline[0], B: polyline[0]}`). -/
def scanInit (line : List Coordinate) : ScanState :=
  { bestDistSq := none
    bestPos := segA line 0
    bestIdx := 0
    bestT := 0
    bestA := segA line 0
    bestB := segA line 0 }

/-- Result assembled from the final loop state after scanning segments
`startIdx, ..., endIdx` (inclusive), with `bear` standing for
`calculateBearing`. -/
def runScan (bear : Coordinate → Coordinate → ℚ) (point : Coordinate)
    (line : List Coordinate) (startIdx endIdx : ℕ) : SnapResult :=
  let st := (List.range' startIdx (endIdx + 1 - startIdx)).foldl
    (scanStep point line) (scanInit line)
  { position := st.bestPos
    angle := bear st.bestA st.bestB
    segmentIndex := st.bestIdx
    t := st.bestT }

/-- geoUtils.ts `snapPointToPolyline`.  `bear` abstracts `calculateBearing`
(trigonometric).  The `hasHint` ternaries of the source become a `match` on
the optional hint; `radius = Math.max(0, Math.floor(searchRadius ?? 0))`. -/
def snapPointToPolyline (bear : Coordinate → Coordinate → ℚ)
    (point : Coordinate) (line : List Coordinate)
    (options : SnapOptions) : SnapResult :=
  if line.length < 2 then
    { position := point, angle := 0, segmentIndex := 0, t := 0 }
  else
    let lastSegment : ℤ := (line.length : ℤ) - 2
    let radius : ℤ := max 0 ⌊options.searchRadius⌋
    match options.segmentHint with
    | some h =>
      let clampedHint := clampIndex (round h) lastSegment
      let startIdx := clampIndex (clampedHint - radius) lastSegment
      let endIdx := clampIndex (clampedHint + radius) lastSegment
      runScan bear point line startIdx.toNat endIdx.toNat
    | none =>
      runScan bear point line 0 lastSegment.toNat

/-- polyUtils.ts `snapToPolyline`: the source duplicates the implementation
of geoUtils.ts `snapPointToPolyline` line for line (same guard, same loop,
same result record); the embedding shares the definition. -/
def snapToPolyline (bear : Coordinate → Coordinate → ℚ)
    (P : Coordinate) (polyline : List Coordinate)
    (options : SnapOptions) : SnapResult :=
  snapPointToPolyline bear P polyline options

/-! ### polyUtils.ts : splitByTurnIndex -/

/-- polyUtils.ts `SplitResult`: each side is a list of polylines
(`Coordinate[][]`, wrapped for the MultiPolyline rendering format). -/
structure SplitResult where
  upPolyline : List (List Coordinate)
  downPolyline : List (List Coordinate)
deriving DecidableEq, Repr

/-- polyUtils.ts `splitByTurnIndex`.  `idx = clampIndex(Math.round(turnIndex),
len - 1)` (round is the identity on the integer turn indices modelled here);
`upCoords = coords.slice(0, idx + 1)`, `downCoords = coords.slice(idx)`;
a side with fewer than 2 points is returned as the empty list. -/
def splitByTurnIndex (coords : List Coordinate) (turnIndex : ℤ) : SplitResult :=
  if coords.length < 2 then { upPolyline := [], downPolyline := [] }
  else
    let idx := (clampIndex turnIndex ((coords.length : ℤ) - 1)).toNat
    let upCoords := coords.take (idx + 1)
    let downCoords := coords.drop idx
    { upPolyline := if 1 < upCoords.length then [upCoords] else []
      downPolyline := if 1 < downCoords.length then [downCoords] else [] }

/-! ### polylineDirection.ts : shouldSwapPolylines -/

/-- One stop entry of `RouteDetail.sequence` (fields used by the heuristic). -/
structure SeqStop where
  nodeid : String
  nodeord : ℤ
  updowncd : ℤ
deriving DecidableEq, Repr

/-- Fields of `RouteDetail` used by `shouldSwapPolylines`. -/
structure RouteDetail where
  sequence : List SeqStop

/-- One entry of the station map (`StationLocation`). -/
structure StationLocation where
  gpslati : ℚ
  gpslong : ℚ
deriving DecidableEq, Repr

/-- polylineDirection.ts `MAX_SAMPLE_STOPS`. -/
def MAX_SAMPLE_STOPS : ℕ := 20

/-- polylineDirection.ts `SWAP_RATIO_SQ` (= 0.9 squared). -/
def SWAP_RATIO_SQ : ℚ := 81 / 100

/-- polylineDirection.ts `getSquaredDistanceToPolyline`: squared planar
distance from `point` to its full-scan snap onto `polyline`. -/
def getSquaredDistanceToPolyline (bear : Coordinate → Coordinate → ℚ)
    (point : Coordinate) (polyline : List Coordinate) : ℚ :=
  let snapped := snapToPolyline bear point polyline {}
  let dLat := point.1 - snapped.position.1
  let dLng := point.2 - snapped.position.2
  dLat * dLat + dLng * dLng

/-- polylineDirection.ts `sampleCoordinates`: uniform stride sampling,
`step = Math.ceil(len / MAX_SAMPLE_STOPS)`, pushing `coords[0], coords[step],
...` and stopping after `MAX_SAMPLE_STOPS` samples or past the end. -/
def sampleCoordinates (coords : List Coordinate) : List Coordinate :=
  if coords.length ≤ MAX_SAMPLE_STOPS then coords
  else
    let step := (coords.length + MAX_SAMPLE_STOPS - 1) / MAX_SAMPLE_STOPS
    ((List.range MAX_SAMPLE_STOPS).map (· * step)).filterMap
      (fun i => if i < coords.length then some (coords.getD i (0, 0)) else none)

/-- polylineDirection.ts `calculateMeanSquaredError`: `null` for an empty
sample or a polyline with fewer than 2 points. -/
def calculateMeanSquaredError (bear : Coordinate → Coordinate → ℚ)
    (points : List Coordinate) (polyline : List Coordinate) : Option ℚ :=
  if points.length = 0 ∨ polyline.length < 2 then none
  else some (((points.map
    (fun p => getSquaredDistanceToPolyline bear p polyline)).sum) /
    (points.length : ℚ))

/-- Stop-coordinate extraction loop of `shouldSwapPolylines`: the stops of
`routeDetail.sequence` with `updowncd = dir` that resolve in the station map
(single pass in the source, one filter pass per direction here). -/
def collectStops (detail : RouteDetail)
    (stationMap : String → Option StationLocation) (dir : ℤ) : List Coordinate :=
  detail.sequence.filterMap (fun stop =>
    match stationMap stop.nodeid with
    | none => none
    | some station =>
      if stop.updowncd = dir then some (station.gpslati, station.gpslong)
      else none)

/-- polylineDirection.ts `shouldSwapPolylines`.  The nullable `routeDetail` /
`stationMap` arguments are `Option`s; a record is a partial map. -/
def shouldSwapPolylines (bear : Coordinate → Coordinate → ℚ)
    (routeDetail : Option RouteDetail)
    (stationMap : Option (String → Option StationLocation))
    (upPolyline downPolyline : List Coordinate) : Bool :=
  match routeDetail, stationMap with
  | some detail, some sm =>
    if upPolyline.length < 2 ∨ downPolyline.length < 2 then false
    else
      let upStops := collectStops detail sm 1
      let downStops := collectStops detail sm 0
      if upStops.length = 0 ∨ downStops.length = 0 then false
      else
        let upSample := sampleCoordinates upStops
        let downSample := sampleCoordinates downStops
        match calculateMeanSquaredError bear upSample upPolyline,
              calculateMeanSquaredError bear upSample downPolyline,
              calculateMeanSquaredError bear downSample upPolyline,
              calculateMeanSquaredError bear downSample downPolyline with
        | some mseUpToUp, some mseUpToDown, some mseDownToUp, some mseDownToDown =>
          decide (mseUpToDown < mseUpToUp * SWAP_RATIO_SQ) &&
          decide (mseDownToUp < mseDownToDown * SWAP_RATIO_SQ)
        | _, _, _, _ => false
  | _, _ => false

/-! ### useBusDirection.ts : best-match selection inside getDirection -/

/-- One candidate of the `sequenceLookupMap` pool inside `getDirection`. -/
structure SeqCandidate where
  routeid : String
  nodeord : ℤ
  updowncd : ℤ
deriving DecidableEq, Repr

/-- Reduce step of `getDirection` Rule 3: keep the candidate with the
smaller order difference, breaking ties by the smaller `nodeord`. -/
def betterCandidate (targetOrd : ℤ) (best curr : SeqCandidate) : SeqCandidate :=
  if |curr.nodeord - targetOrd| < |best.nodeord - targetOrd| then curr
  else if |curr.nodeord - targetOrd| = |best.nodeord - targetOrd| ∧
      curr.nodeord < best.nodeord then curr
  else best

/-- useBusDirection.ts `getDirection`, Rule 3 (`exactMatch || pool.reduce`):
the first exact `nodeord` match if any, otherwise the reduce over the whole
pool seeded with `pool[0]` (a JavaScript `reduce` with an initial value
visits every element, the seed included). -/
def findBestMatch (pool : List SeqCandidate) (targetOrd : ℤ) :
    Option SeqCandidate :=
  match pool with
  | [] => none
  | p0 :: _ =>
    match pool.find? (fun c => decide (c.nodeord = targetOrd)) with
    | some exact => some exact
    | none => some (pool.foldl (betterCandidate targetOrd) p0)

/-! ### getSnappedPos.ts : getSnappedPosition -/

/-- getSnappedPos.ts `MAX_SNAP_DISTANCE_METERS`. -/
def MAX_SNAP_DISTANCE_METERS : ℚ := 50

/-- getSnappedPos.ts `DEFAULT_SNAP_INDEX_RANGE`. -/
def DEFAULT_SNAP_INDEX_RANGE : ℚ := 80

/-- polyUtils.ts `StopIndexMap`: four string-keyed records; the composite
keys are built by string concatenation exactly as in the source
(no two `(id, dir)` pairs collide, since `dir` is the single last
character). -/
structure StopIndexMap where
  byId : String → Option ℤ
  byIdDir : String → Option ℤ
  byOrd : String → Option ℤ
  byOrdDir : String → Option ℤ

/-- Fields of `BusItem` read by `getSnappedPosition`.  `nodeord` is the
already-numeric `Number(bus.nodeord)` (`Number.isFinite` checks of the
source hold by typing). -/
structure BusItem where
  gpslati : ℚ
  gpslong : ℚ
  nodeid : String
  nodeord : ℤ
  routeid : Option String

/-- getSnappedPos.ts `SnappedResult`. -/
structure SnappedResult where
  position : Coordinate
  angle : ℚ
  direction : ℤ
  segmentIndex : Option ℕ
deriving DecidableEq, Repr

/-- getSnappedPos.ts `SnapCandidate` (`SnappedResult` plus distance and
validity). -/
structure SnapCandidate where
  position : Coordinate
  angle : ℚ
  direction : ℤ
  segmentIndex : Option ℕ
  distance : ℚ
  isValid : Bool
deriving DecidableEq, Repr

/-- Forget the extra `SnapCandidate` fields (a returned candidate is read as
a `SnappedResult` by the caller). -/
def SnapCandidate.toResult (c : SnapCandidate) : SnappedResult :=
  { position := c.position
    angle := c.angle
    direction := c.direction
    segmentIndex := c.segmentIndex }

/-- getSnappedPos.ts `GetSnappedOptions` with its defaults applied. -/
structure GetSnappedOptions where
  stopIndexMap : Option StopIndexMap := none
  turnIndex : Option ℤ := none
  isSwapped : Bool := false
  snapIndexRange : ℚ := DEFAULT_SNAP_INDEX_RANGE

/-- getSnappedPos.ts `getStopCoordIndex`: keyed lookups in priority order
`byIdDir`, `byOrdDir` (only when a direction is given), then `byId`,
`byOrd`. -/
def getStopCoordIndex (stopIndexMap : Option StopIndexMap)
    (nodeid : String) (nodeord : ℤ) (direction : Option ℤ) : Option ℤ :=
  match stopIndexMap with
  | none => none
  | some m =>
    let cleanedId := nodeid.trim
    let byDir : Option ℤ :=
      match direction with
      | some d =>
        (if cleanedId ≠ "" then m.byIdDir (cleanedId ++ "-" ++ toString d)
         else none) <|>
        m.byOrdDir (toString nodeord ++ "-" ++ toString d)
      | none => none
    byDir <|>
    (if cleanedId ≠ "" then m.byId cleanedId else none) <|>
    m.byOrd (toString nodeord)

/-- getSnappedPos.ts `getSegmentHint`.  `safeTurnIndex = Math.round(turnIndex)`
is the identity on the integral turn indices modelled here. -/
def getSegmentHint (coordIndex : Option ℤ) (direction : ℤ)
    (lineLength : ℕ) (turnIndex : Option ℤ) (isSwapped : Bool) : Option ℤ :=
  match coordIndex with
  | none => none
  | some ci =>
    if lineLength < 2 then none
    else
      let lastSegment : ℤ := (lineLength : ℤ) - 2
      let effectiveDirection : ℤ :=
        if isSwapped then (if direction = 1 then 0 else 1) else direction
      match turnIndex with
      | none => some (clampIndex (ci - 1) lastSegment)
      | some safeTurnIndex =>
        if effectiveDirection = 1 then
          if safeTurnIndex < ci then none
          else some (clampIndex (ci - 1) lastSegment)
        else
          if ci < safeTurnIndex then none
          else some (clampIndex (ci - safeTurnIndex - 1) lastSegment)

/-- getSnappedPos.ts `createCandidate` (closure inside `getSnappedPosition`);
`dist` abstracts `getHaversineDistanceMeters`. -/
def createCandidate (bear : Coordinate → Coordinate → ℚ)
    (dist : Coordinate → Coordinate → ℚ) (rawPosition : Coordinate)
    (stopIndexUp stopIndexDown stopIndexAny : Option ℤ)
    (turnIndex : Option ℤ) (isSwapped : Bool) (snapIndexRange : ℚ)
    (line : List Coordinate) (dir : ℤ) : Option SnapCandidate :=
  if line.length < 2 then none
  else
    let coordIndex :=
      if dir = 1 then stopIndexUp <|> stopIndexAny
      else stopIndexDown <|> stopIndexAny
    let segmentHint := getSegmentHint coordIndex dir line.length turnIndex isSwapped
    let snapped := snapPointToPolyline bear rawPosition line
      { segmentHint := segmentHint.map (fun z => (z : ℚ))
        searchRadius := snapIndexRange }
    let distance := dist rawPosition snapped.position
    some
      { position := snapped.position
        angle := snapped.angle
        direction := dir
        segmentIndex := some snapped.segmentIndex
        distance := distance
        isValid := decide (distance ≤ MAX_SNAP_DISTANCE_METERS) }

/-- Validity test `candidate?.isValid` on a nullable candidate. -/
def isValidOpt : Option SnapCandidate → Bool
  | some c => c.isValid
  | none => false

/-- Selection strategy of `getSnappedPosition` (Cases A through D of the
source, in order). -/
def chooseCandidate (apiDirection : Option ℤ)
    (candidateUp candidateDown : Option SnapCandidate)
    (defaultResult : SnappedResult) : SnappedResult :=
  if apiDirection = some 1 ∧ isValidOpt candidateUp then
    match candidateUp with
    | some cu => cu.toResult
    | none => defaultResult
  else if apiDirection = some 0 ∧ isValidOpt candidateDown then
    match candidateDown with
    | some cd => cd.toResult
    | none => defaultResult
  else if isValidOpt candidateUp ∧ isValidOpt candidateDown then
    match candidateUp, candidateDown with
    | some cu, some cd =>
      if cu.distance < cd.distance then cu.toResult else cd.toResult
    | _, _ => defaultResult
  else if isValidOpt candidateUp then
    match candidateUp with
    | some cu => cu.toResult
    | none => defaultResult
  else if isValidOpt candidateDown then
    match candidateDown with
    | some cd => cd.toResult
    | none => defaultResult
  else defaultResult

/-- getSnappedPos.ts `getSnappedPosition`.  `bear` abstracts
`calculateBearing` and `dist` abstracts `getHaversineDistanceMeters`
(both trigonometric); all theorems hold for arbitrary choices. -/
def getSnappedPosition (bear : Coordinate → Coordinate → ℚ)
    (dist : Coordinate → Coordinate → ℚ) (bus : BusItem)
    (getDirection : String → ℤ → Option String → Option ℤ)
    (upPolyline downPolyline : List Coordinate)
    (options : GetSnappedOptions) : SnappedResult :=
  let rawPosition : Coordinate := (bus.gpslati, bus.gpslong)
  let apiDirection := getDirection bus.nodeid bus.nodeord bus.routeid
  let defaultResult : SnappedResult :=
    { position := rawPosition
      angle := 0
      direction := apiDirection.getD 0
      segmentIndex := none }
  let stopIndexUp :=
    getStopCoordIndex options.stopIndexMap bus.nodeid bus.nodeord (some 1)
  let stopIndexDown :=
    getStopCoordIndex options.stopIndexMap bus.nodeid bus.nodeord (some 0)
  let stopIndexAny :=
    getStopCoordIndex options.stopIndexMap bus.nodeid bus.nodeord none
  let candidateUp := createCandidate bear dist rawPosition
    stopIndexUp stopIndexDown stopIndexAny options.turnIndex
    options.isSwapped options.snapIndexRange upPolyline 1
  let candidateDown := createCandidate bear dist rawPosition
    stopIndexUp stopIndexDown stopIndexAny options.turnIndex
    options.isSwapped options.snapIndexRange downPolyline 0
  chooseCandidate apiDirection candidateUp candidateDown defaultResult

/-! ### CacheManager (generic keyed async cache) -/

/-- Association-list lookup used for the `Map` collaborators of
`CacheManager` (first binding wins, as in a duplicate-free `Map`). -/
def mapGet {β : Type} (m : List (String × β)) (k : String) : Option β :=
  match m with
  | [] => none
  | (a, v) :: rest => if a = k then some v else mapGet rest k

/-- `Map.set`: replace the binding in place if present, else append. -/
def mapSet {β : Type} (m : List (String × β)) (k : String) (v : β) :
    List (String × β) :=
  if (mapGet m k).isSome then
    m.map (fun p => if p.1 = k then (k, v) else p)
  else m ++ [(k, v)]

/-- `Map.delete`. -/
def mapDelete {β : Type} (m : List (String × β)) (k : String) :
    List (String × β) :=
  m.filter (fun p => decide (p.1 ≠ k))

/-- State of a `CacheManager<T>` instance.  Promises are identified by the
numbers `pendingRequests` stores; `nextPromiseId` is a fresh-name supply.
Wall-clock times (`Date.now()`) are inputs of the operations. -/
structure CacheState (T : Type) where
  cache : List (String × T)
  pendingRequests : List (String × ℕ)
  accessTimes : List (String × ℕ)
  maxSize : ℕ
  nextPromiseId : ℕ
deriving DecidableEq, Repr

/-- `CacheManager.evictLRU`: drop the key with the smallest access time
(`reduce` without an initial value keeps the first minimum; it is only ever
called with a non-empty cache, hence non-empty access times — the empty
case is unreachable and returns the state unchanged). -/
def evictLRU {T : Type} (s : CacheState T) : CacheState T :=
  match s.accessTimes with
  | [] => s
  | a :: rest =>
    let oldest := rest.foldl (fun o c => if c.2 < o.2 then c else o) a
    { s with
      cache := mapDelete s.cache oldest.1
      accessTimes := mapDelete s.accessTimes oldest.1
      pendingRequests := mapDelete s.pendingRequests oldest.1 }

/-- `CacheManager.set`: evict the least recently used entry when the cache
is full and the key is new, then store and stamp the access time. -/
def cmSet {T : Type} (s : CacheState T) (now : ℕ) (key : String) (value : T) :
    CacheState T :=
  let s1 := if s.maxSize ≤ s.cache.length ∧ (mapGet s.cache key).isNone
    then evictLRU s else s
  { s1 with
    cache := mapSet s1.cache key value
    accessTimes := mapSet s1.accessTimes key now }

/-- Synchronous outcome of a `getOrFetch` call: a cache hit, joining an
already-pending promise, or starting a new fetch (the only outcome that
invokes the producer `fetchFn`). -/
inductive FetchOutcome (T : Type) where
  | cached (value : T)
  | joinedPending (promiseId : ℕ)
  | startedFetch (promiseId : ℕ)
deriving DecidableEq, Repr

/-- `CacheManager.getOrFetch`, synchronous part: return the cached value if
present (stamping the access time), else the pending promise if one exists,
else register a fresh promise for the key and invoke the producer. -/
def getOrFetch {T : Type} (s : CacheState T) (now : ℕ) (key : String) :
    FetchOutcome T × CacheState T :=
  match mapGet s.cache key with
  | some v => (.cached v, { s with accessTimes := mapSet s.accessTimes key now })
  | none =>
    match mapGet s.pendingRequests key with
    | some pid => (.joinedPending pid, s)
    | none =>
      (.startedFetch s.nextPromiseId,
       { s with
         pendingRequests := mapSet s.pendingRequests key s.nextPromiseId
         nextPromiseId := s.nextPromiseId + 1 })

/-- Continuation chained onto the producer inside `getOrFetch`
(`fetchFn().then(data => { this.set(key, data); return data; })
.finally(() => this.pendingRequests.delete(key))`): on fulfilment the value
is stored and the pending entry removed, on rejection only the pending
entry is removed; either way the settled result of the shared promise —
what every caller awaiting this key observes — is passed through. -/
def settleFetch {T E : Type} (s : CacheState T) (now : ℕ) (key : String)
    (result : Except E T) : CacheState T × Except E T :=
  match result with
  | .ok v =>
    let s1 := cmSet s now key v
    ({ s1 with pendingRequests := mapDelete s1.pendingRequests key }, .ok v)
  | .error e =>
    ({ s with pendingRequests := mapDelete s.pendingRequests key }, .error e)

/-! ## Lemmas about the polyline scan -/

/-- Index-level view of one scan iteration: keep the strictly closer
segment, first-found minimum wins. -/
def pickIdx (point : Coordinate) (line : List Coordinate) (b i : ℕ) : ℕ :=
  if dSqAt point line i < dSqAt point line b then i else b

/-- Winning segment index of a scan over segments `s, ..., s + n`. -/
def bestIdxFrom (point : Coordinate) (line : List Coordinate) (s n : ℕ) : ℕ :=
  (List.range' (s + 1) n).foldl (pickIdx point line) s

/-- Result record assembled for winning segment `i`. -/
def resultAt (bear : Coordinate → Coordinate → ℚ) (point : Coordinate)
    (line : List Coordinate) (i : ℕ) : SnapResult :=
  { position := projAt point line i
    angle := bear (segA line i) (segB line i)
    segmentIndex := i
    t := tAt point line i }

theorem scanStep_scanInit (point : Coordinate) (line : List Coordinate)
    (i : ℕ) : scanStep point line (scanInit line) i = mkState point line i := by
  simp [scanStep, scanInit, improves]

theorem scanStep_mkState (point : Coordinate) (line : List Coordinate)
    (j i : ℕ) :
    scanStep point line (mkState point line j) i =
      mkState point line (pickIdx point line j i) := by
  by_cases h : dSqAt point line i < dSqAt point line j
  · simp [scanStep, mkState, improves, pickIdx, h]
  · simp [scanStep, mkState, improves, pickIdx, h]

theorem foldl_scanStep (point : Coordinate) (line : List Coordinate)
    (l : List ℕ) (j : ℕ) :
    l.foldl (scanStep point line) (mkState point line j) =
      mkState point line (l.foldl (pickIdx point line) j) := by
  induction l generalizing j with
  | nil => rfl
  | cons i l ih =>
    simp only [List.foldl_cons, scanStep_mkState]
    exact ih (pickIdx point line j i)

theorem runScan_eq (bear : Coordinate → Coordinate → ℚ) (point : Coordinate)
    (line : List Coordinate) (s e : ℕ) (h : s ≤ e) :
    runScan bear point line s e =
      resultAt bear point line (bestIdxFrom point line s (e - s)) := by
  have hn : e + 1 - s = (e - s) + 1 := by omega
  unfold runScan
  rw [hn, List.range'_succ, List.foldl_cons, scanStep_scanInit,
    foldl_scanStep]
  rfl

theorem bestIdxFrom_zero (point : Coordinate) (line : List Coordinate)
    (s : ℕ) : bestIdxFrom point line s 0 = s := rfl

theorem bestIdxFrom_succ (point : Coordinate) (line : List Coordinate)
    (s n : ℕ) :
    bestIdxFrom point line s (n + 1) =
      pickIdx point line (bestIdxFrom point line s n) (s + 1 + n) := by
  unfold bestIdxFrom
  rw [List.range'_1_concat, List.foldl_append]
  rfl

theorem bestIdxFrom_mem (point : Coordinate) (line : List Coordinate)
    (s n : ℕ) : s ≤ bestIdxFrom point line s n ∧
      bestIdxFrom point line s n ≤ s + n := by
  induction n with
  | zero => simp [bestIdxFrom_zero]
  | succ n ih =>
    rw [bestIdxFrom_succ]
    unfold pickIdx
    split <;> omega

theorem bestIdxFrom_min (point : Coordinate) (line : List Coordinate)
    (s n : ℕ) : ∀ k, s ≤ k → k ≤ s + n →
      dSqAt point line (bestIdxFrom point line s n) ≤ dSqAt point line k := by
  induction n with
  | zero =>
    intro k hk hk2
    have : k = s := by omega
    simp [this, bestIdxFrom_zero]
  | succ n ih =>
    intro k hk hk2
    rw [bestIdxFrom_succ]
    unfold pickIdx
    by_cases h : dSqAt point line (s + 1 + n) <
        dSqAt point line (bestIdxFrom point line s n)
    · rw [if_pos h]
      rcases Nat.lt_or_ge k (s + n + 1) with hlt | hge
      · exact le_of_lt (lt_of_lt_of_le h (ih k hk (by omega)))
      · have hk3 : k = s + 1 + n := by omega
        simp [hk3]
    · rw [if_neg h]
      rcases Nat.lt_or_ge k (s + n + 1) with hlt | hge
      · exact ih k hk (by omega)
      · have hk3 : k = s + 1 + n := by omega
        subst hk3
        exact le_of_not_lt h

theorem bestIdxFrom_first (point : Coordinate) (line : List Coordinate)
    (s n : ℕ) : ∀ k, s ≤ k → k < bestIdxFrom point line s n →
      dSqAt point line (bestIdxFrom point line s n) < dSqAt point line k := by
  induction n with
  | zero =>
    intro k hk hk2
    rw [bestIdxFrom_zero] at hk2
    omega
  | succ n ih =>
    intro k hk hk2
    rw [bestIdxFrom_succ] at hk2 ⊢
    unfold pickIdx at hk2 ⊢
    by_cases h : dSqAt point line (s + 1 + n) <
        dSqAt point line (bestIdxFrom point line s n)
    · rw [if_pos h] at hk2 ⊢
      have hkle : k ≤ s + n := by
        have := (bestIdxFrom_mem point line s n).2
        omega
      exact lt_of_lt_of_le h (bestIdxFrom_min point line s n k hk hkle)
    · rw [if_neg h] at hk2 ⊢
      exact ih k hk hk2

theorem snapPointToPolyline_noHint (bear : Coordinate → Coordinate → ℚ)
    (point : Coordinate) (line : List Coordinate) (rq : ℚ)
    (h2 : ¬ line.length < 2) :
    snapPointToPolyline bear point line
      { segmentHint := none, searchRadius := rq } =
      runScan bear point line 0 ((line.length : ℤ) - 2).toNat := by
  simp [snapPointToPolyline, h2]

theorem snapPointToPolyline_withHint (bear : Coordinate → Coordinate → ℚ)
    (point : Coordinate) (line : List Coordinate) (hq rq : ℚ)
    (h2 : ¬ line.length < 2) :
    snapPointToPolyline bear point line
      { segmentHint := some hq, searchRadius := rq } =
      runScan bear point line
        (clampIndex (clampIndex (round hq) ((line.length : ℤ) - 2) -
          max 0 ⌊rq⌋) ((line.length : ℤ) - 2)).toNat
        (clampIndex (clampIndex (round hq) ((line.length : ℤ) - 2) +
          max 0 ⌊rq⌋) ((line.length : ℤ) - 2)).toNat := by
  simp [snapPointToPolyline, h2]

theorem tAt_bounds (point : Coordinate) (line : List Coordinate) (i : ℕ) :
    0 ≤ tAt point line i ∧ tAt point line i ≤ 1 := by
  simp only [tAt]
  constructor
  · split
    · exact le_max_left 0 _
    · exact le_refl 0
  · split
    · exact max_le (by norm_num) (min_le_left 1 _)
    · norm_num

/-- Normal form of a non-degenerate snap: some inclusive scan window
`[s, e]` inside `[0, len - 2]` determines the result as the first-minimum
segment of that window. -/
theorem snapPointToPolyline_normal (bear : Coordinate → Coordinate → ℚ)
    (point : Coordinate) (line : List Coordinate) (opts : SnapOptions)
    (h2 : 2 ≤ line.length) :
    ∃ s e : ℕ, s ≤ e ∧ e ≤ line.length - 2 ∧
      snapPointToPolyline bear point line opts =
        resultAt bear point line (bestIdxFrom point line s (e - s)) := by
  have h2' : ¬ line.length < 2 := not_lt.mpr h2
  obtain ⟨hint, rq⟩ := opts
  cases hint with
  | none =>
    refine ⟨0, ((line.length : ℤ) - 2).toNat, by omega, by omega, ?_⟩
    rw [snapPointToPolyline_noHint bear point line rq h2',
      runScan_eq bear point line _ _ (Nat.zero_le _)]
  | some hq =>
    refine ⟨(clampIndex (clampIndex (round hq) ((line.length : ℤ) - 2) -
        max 0 ⌊rq⌋) ((line.length : ℤ) - 2)).toNat,
      (clampIndex (clampIndex (round hq) ((line.length : ℤ) - 2) +
        max 0 ⌊rq⌋) ((line.length : ℤ) - 2)).toNat, ?_, ?_, ?_⟩
    · simp only [clampIndex]
      omega
    · simp only [clampIndex]
      omega
    · rw [snapPointToPolyline_withHint bear point line hq rq h2',
        runScan_eq bear point line _ _ (by simp only [clampIndex]; omega)]

/-! ## Claims C3, C7, C10 : the polyline snap -/

/-- C3: for every point and every polyline, the nearest-point search with no
segment hint (full scan) and the search with a hint whose window
`[hint - radius, hint + radius]` contains the segment index found by the
full scan return identical results (same position, angle, segment index
and t). -/
theorem C3_snap_hint_window_consistency (bear : Coordinate → Coordinate → ℚ)
    (point : Coordinate) (line : List Coordinate) (h : ℤ) (r : ℕ)
    (hlo : h - r ≤ ((snapPointToPolyline bear point line {}).segmentIndex : ℤ))
    (hhi : ((snapPointToPolyline bear point line {}).segmentIndex : ℤ) ≤ h + r) :
    snapPointToPolyline bear point line
      { segmentHint := some (h : ℚ), searchRadius := (r : ℚ) } =
      snapPointToPolyline bear point line {} := by
  by_cases h2 : line.length < 2
  · simp [snapPointToPolyline, h2]
  · have h2' : 2 ≤ line.length := by omega
    have hLnat : ((line.length : ℤ) - 2).toNat = line.length - 2 := by omega
    -- the full scan in normal form
    have hfull : snapPointToPolyline bear point line {} =
        resultAt bear point line (bestIdxFrom point line 0 (line.length - 2)) := by
      rw [snapPointToPolyline_noHint bear point line 0 h2,
        runScan_eq bear point line _ _ (Nat.zero_le _), hLnat, Nat.sub_zero]
    set b : ℕ := bestIdxFrom point line 0 (line.length - 2) with hb
    have hbfull : (snapPointToPolyline bear point line {}).segmentIndex = b := by
      rw [hfull]; rfl
    have hble : b ≤ line.length - 2 := by
      have := (bestIdxFrom_mem point line 0 (line.length - 2)).2
      omega
    rw [hbfull] at hlo hhi
    -- the hinted scan window
    have hround : round ((h : ℚ)) = h := round_intCast h
    have hradius : (max 0 ⌊((r : ℕ) : ℚ)⌋) = (r : ℤ) := by
      rw [show (((r : ℕ) : ℚ)) = ((r : ℤ) : ℚ) by push_cast; ring,
        Int.floor_intCast]
      omega
    set s0 : ℤ :=
      clampIndex (clampIndex h ((line.length : ℤ) - 2) - r)
        ((line.length : ℤ) - 2) with hs0
    set e0 : ℤ :=
      clampIndex (clampIndex h ((line.length : ℤ) - 2) + r)
        ((line.length : ℤ) - 2) with he0
    have hwin : s0.toNat ≤ b ∧ b ≤ e0.toNat ∧
        e0 ≤ (line.length : ℤ) - 2 ∧ 0 ≤ s0 := by
      rw [hs0, he0]
      simp only [clampIndex]
      omega
    have hhint : snapPointToPolyline bear point line
        { segmentHint := some (h : ℚ), searchRadius := (r : ℚ) } =
        resultAt bear point line
          (bestIdxFrom point line s0.toNat (e0.toNat - s0.toNat)) := by
      rw [snapPointToPolyline_withHint bear point line (h : ℚ) (r : ℚ) h2,
        hround, hradius, ← hs0, ← he0,
        runScan_eq bear point line _ _ (by omega)]
    set c : ℕ := bestIdxFrom point line s0.toNat (e0.toNat - s0.toNat) with hc
    have hcmem := bestIdxFrom_mem point line s0.toNat (e0.toNat - s0.toNat)
    have hcb : c = b := by
      have hub : dSqAt point line c ≤ dSqAt point line b :=
        bestIdxFrom_min point line s0.toNat (e0.toNat - s0.toNat) b
          hwin.1 (by omega)
      have hbu : dSqAt point line b ≤ dSqAt point line c :=
        bestIdxFrom_min point line 0 (line.length - 2) c (Nat.zero_le _)
          (by omega)
      rcases Nat.lt_trichotomy c b with hlt | heq | hgt
      · exact absurd hub (not_le.mpr
          (bestIdxFrom_first point line 0 (line.length - 2) c (Nat.zero_le _) hlt))
      · exact heq
      · exact absurd hbu (not_le.mpr
          (bestIdxFrom_first point line s0.toNat (e0.toNat - s0.toNat) b
            hwin.1 hgt))
    rw [hhint, hfull, hcb]

/-- Shared bound: a non-degenerate snap never reports a segment index past
`len - 2`. -/
theorem snap_segmentIndex_le (bear : Coordinate → Coordinate → ℚ)
    (point : Coordinate) (line : List Coordinate) (opts : SnapOptions)
    (h2 : 2 ≤ line.length) :
    (snapPointToPolyline bear point line opts).segmentIndex ≤
      line.length - 2 := by
  obtain ⟨s, e, hse, hle, heq⟩ :=
    snapPointToPolyline_normal bear point line opts h2
  have := (bestIdxFrom_mem point line s (e - s)).2
  rw [heq]
  simp only [resultAt]
  omega

/-- C3 witness: on a concrete 2-point polyline the full scan finds segment
0, the window of hint 0 with radius 0 contains it, and the hinted search
returns the identical result. -/
theorem C3_snap_hint_window_consistency_witness :
    ((0 : ℤ) - (0 : ℕ) ≤ ((snapPointToPolyline (fun _ _ => 0) (5, 7)
      [(0, 0), (0, 1)] {}).segmentIndex : ℤ)) ∧
    (((snapPointToPolyline (fun _ _ => 0) (5, 7)
      [(0, 0), (0, 1)] {}).segmentIndex : ℤ) ≤ (0 : ℤ) + (0 : ℕ)) ∧
    snapPointToPolyline (fun _ _ => 0) (5, 7) [(0, 0), (0, 1)]
      { segmentHint := some ((0 : ℤ) : ℚ), searchRadius := ((0 : ℕ) : ℚ) } =
    snapPointToPolyline (fun _ _ => 0) (5, 7) [(0, 0), (0, 1)] {} := by
  have hidx : (snapPointToPolyline (fun _ _ => (0 : ℚ)) (5, 7)
      [(0, 0), (0, 1)] {}).segmentIndex ≤ 0 :=
    snap_segmentIndex_le (fun _ _ => 0) (5, 7) [(0, 0), (0, 1)] {}
      (by norm_num)
  refine ⟨by omega, by omega, ?_⟩
  exact C3_snap_hint_window_consistency (fun _ _ => 0) (5, 7)
    [(0, 0), (0, 1)] 0 0 (by omega) (by omega)

/-- C7 counterexample: for the one-point polyline `[(1, 1)]` and the input
point `(0, 0)`, the snap returns the original input point, not the
polyline's single point, refuting "returns the polyline's single point when
it has one point". -/
theorem C7_counterexample_single_point_polyline :
    (snapPointToPolyline (fun _ _ => 0) (0, 0) [(1, 1)] {}).position ≠
      ((1 : ℚ), (1 : ℚ)) := by
  decide

/-- C7 (amended): for every input point and every polyline with fewer than
2 points, both snap functions return the degenerate result carrying the
original input point (not the polyline's single point), with `segmentIndex`
0 as a sentinel, angle 0 and t 0. -/
theorem C7_snap_degenerate_returns_input_point
    (bear : Coordinate → Coordinate → ℚ) (point : Coordinate)
    (line : List Coordinate) (opts : SnapOptions) (h : line.length < 2) :
    snapPointToPolyline bear point line opts =
      { position := point, angle := 0, segmentIndex := 0, t := 0 } ∧
    snapToPolyline bear point line opts =
      { position := point, angle := 0, segmentIndex := 0, t := 0 } := by
  constructor <;> simp [snapPointToPolyline, snapToPolyline, h]

/-- C7 witness: the amended degenerate behaviour at the concrete single-point
polyline. -/
theorem C7_snap_degenerate_witness :
    ([((1 : ℚ), (1 : ℚ))].length < 2) ∧
    (snapPointToPolyline (fun _ _ => 0) (0, 0) [(1, 1)] {} =
      { position := ((0 : ℚ), (0 : ℚ)), angle := 0, segmentIndex := 0, t := 0 } ∧
    snapToPolyline (fun _ _ => 0) (0, 0) [(1, 1)] {} =
      { position := ((0 : ℚ), (0 : ℚ)), angle := 0, segmentIndex := 0, t := 0 }) :=
  ⟨by decide, C7_snap_degenerate_returns_input_point
    (fun _ _ => 0) (0, 0) [(1, 1)] {} (by decide)⟩

/-- C10: for every input point, every polyline with at least 2 points and
every options value, the snap result's segment index lies in
`[0, len - 2]`, its `t` lies in `[0, 1]`, its position is the point of
segment `segmentIndex` at parameter `t`, and its angle is the bearing of
that segment's endpoints. -/
theorem C10_snap_result_invariants (bear : Coordinate → Coordinate → ℚ)
    (point : Coordinate) (line : List Coordinate) (opts : SnapOptions)
    (h2 : 2 ≤ line.length) :
    (snapPointToPolyline bear point line opts).segmentIndex ≤ line.length - 2 ∧
    0 ≤ (snapPointToPolyline bear point line opts).t ∧
    (snapPointToPolyline bear point line opts).t ≤ 1 ∧
    (snapPointToPolyline bear point line opts).position =
      ((segA line (snapPointToPolyline bear point line opts).segmentIndex).1 +
        ((segB line (snapPointToPolyline bear point line opts).segmentIndex).1 -
         (segA line (snapPointToPolyline bear point line opts).segmentIndex).1) *
          (snapPointToPolyline bear point line opts).t,
       (segA line (snapPointToPolyline bear point line opts).segmentIndex).2 +
        ((segB line (snapPointToPolyline bear point line opts).segmentIndex).2 -
         (segA line (snapPointToPolyline bear point line opts).segmentIndex).2) *
          (snapPointToPolyline bear point line opts).t) ∧
    (snapPointToPolyline bear point line opts).angle =
      bear (segA line (snapPointToPolyline bear point line opts).segmentIndex)
        (segB line (snapPointToPolyline bear point line opts).segmentIndex) := by
  obtain ⟨s, e, hse, hle, heq⟩ :=
    snapPointToPolyline_normal bear point line opts h2
  set i : ℕ := bestIdxFrom point line s (e - s) with hi
  have hmem := bestIdxFrom_mem point line s (e - s)
  rw [heq]
  refine ⟨by simp only [resultAt]; omega, (tAt_bounds point line i).1,
    (tAt_bounds point line i).2, ?_, rfl⟩
  simp only [resultAt, projAt]

/-- C10 witness: the invariants instantiated on a concrete 2-point
polyline. -/
theorem C10_snap_result_invariants_witness :
    2 ≤ ([(0, 0), (0, 1)] : List Coordinate).length ∧
    ((snapPointToPolyline (fun _ _ => 0) (5, 7) [(0, 0), (0, 1)]
        {}).segmentIndex ≤ ([(0, 0), (0, 1)] : List Coordinate).length - 2 ∧
      0 ≤ (snapPointToPolyline (fun _ _ => 0) (5, 7) [(0, 0), (0, 1)] {}).t ∧
      (snapPointToPolyline (fun _ _ => 0) (5, 7) [(0, 0), (0, 1)] {}).t ≤ 1 ∧
      (snapPointToPolyline (fun _ _ => 0) (5, 7) [(0, 0), (0, 1)] {}).position =
        ((segA [(0, 0), (0, 1)] (snapPointToPolyline (fun _ _ => 0) (5, 7)
            [(0, 0), (0, 1)] {}).segmentIndex).1 +
          ((segB [(0, 0), (0, 1)] (snapPointToPolyline (fun _ _ => 0) (5, 7)
              [(0, 0), (0, 1)] {}).segmentIndex).1 -
           (segA [(0, 0), (0, 1)] (snapPointToPolyline (fun _ _ => 0) (5, 7)
              [(0, 0), (0, 1)] {}).segmentIndex).1) *
            (snapPointToPolyline (fun _ _ => 0) (5, 7) [(0, 0), (0, 1)] {}).t,
         (segA [(0, 0), (0, 1)] (snapPointToPolyline (fun _ _ => 0) (5, 7)
            [(0, 0), (0, 1)] {}).segmentIndex).2 +
          ((segB [(0, 0), (0, 1)] (snapPointToPolyline (fun _ _ => 0) (5, 7)
              [(0, 0), (0, 1)] {}).segmentIndex).2 -
           (segA [(0, 0), (0, 1)] (snapPointToPolyline (fun _ _ => 0) (5, 7)
              [(0, 0), (0, 1)] {}).segmentIndex).2) *
            (snapPointToPolyline (fun _ _ => 0) (5, 7) [(0, 0), (0, 1)] {}).t) ∧
      (snapPointToPolyline (fun _ _ => 0) (5, 7) [(0, 0), (0, 1)] {}).angle =
        (fun _ _ => (0 : ℚ))
          (segA [(0, 0), (0, 1)] (snapPointToPolyline (fun _ _ => 0) (5, 7)
            [(0, 0), (0, 1)] {}).segmentIndex)
          (segB [(0, 0), (0, 1)] (snapPointToPolyline (fun _ _ => 0) (5, 7)
            [(0, 0), (0, 1)] {}).segmentIndex)) :=
  ⟨by norm_num,
    C10_snap_result_invariants (fun _ _ => 0) (5, 7) [(0, 0), (0, 1)] {}
      (by norm_num)⟩

/-! ## Claim C5 : splitByTurnIndex -/

/-- C5 counterexample: on the 2-point polyline with turn index 0, the
outbound slice `coords[0..0]` has a single point and is returned as the
empty polyline, so concatenating the returned outbound part with the
returned inbound part minus its first element yields `[(1, 1)]`, not the
original sequence. -/
theorem C5_counterexample_degenerate_outbound :
    ((splitByTurnIndex [(0, 0), (1, 1)] 0).upPolyline.headD []) ++
      (((splitByTurnIndex [(0, 0), (1, 1)] 0).downPolyline.headD []).drop 1) ≠
      ([(0, 0), (1, 1)] : List Coordinate) := by
  decide

/-- C5 (amended): for every coordinate list with at least 2 points, with
`idx` the rounded turn index clamped to `[0, len - 1]`, the split yields
outbound `coords[0..idx]` inclusive and inbound `coords[idx..end]`
inclusive (sharing the turn point), and — whenever both parts keep at least
2 points, i.e. `1 ≤ idx ≤ len - 2`; a shorter part is returned as the empty
polyline instead — concatenating the outbound part with the inbound part
minus its first element reconstructs the original sequence exactly. -/
theorem C5_split_reconstruction (coords : List Coordinate) (turnIndex : ℤ)
    (idx : ℕ) (hidx : idx = (clampIndex turnIndex ((coords.length : ℤ) - 1)).toNat)
    (h1 : 1 ≤ idx) (h2 : idx + 2 ≤ coords.length) :
    splitByTurnIndex coords turnIndex =
      { upPolyline := [coords.take (idx + 1)]
        downPolyline := [coords.drop idx] } ∧
    coords.take (idx + 1) ++ (coords.drop idx).drop 1 = coords := by
  have hlen : ¬ coords.length < 2 := by omega
  constructor
  · rw [splitByTurnIndex, if_neg hlen, ← hidx]
    have hup : 1 < (coords.take (idx + 1)).length := by
      simp only [List.length_take]
      omega
    have hdown : 1 < (coords.drop idx).length := by
      simp only [List.length_drop]
      omega
    simp only [if_pos hup, if_pos hdown]
  · rw [List.drop_drop, List.take_append_drop]

/-- C5 witness: the amended reconstruction on a concrete 3-point polyline
split at turn index 1. -/
theorem C5_split_reconstruction_witness :
    ((1 : ℕ) = (clampIndex 1 ((([(0, 0), (1, 1), (2, 2)] :
        List Coordinate).length : ℤ) - 1)).toNat) ∧
    (splitByTurnIndex [(0, 0), (1, 1), (2, 2)] 1 =
      { upPolyline := [[(0, 0), (1, 1)]]
        downPolyline := [[(1, 1), (2, 2)]] } ∧
    ([(0, 0), (1, 1)] : List Coordinate) ++
      (([(1, 1), (2, 2)] : List Coordinate).drop 1) =
      [(0, 0), (1, 1), (2, 2)]) := by
  have h := C5_split_reconstruction [(0, 0), (1, 1), (2, 2)] 1 1
    (by decide) (by decide) (by decide)
  exact ⟨by decide, by
    constructor
    · exact h.1
    · exact h.2⟩

/-! ## Claim C6 : best-match selection of the direction resolver -/

theorem betterCandidate_cases (t : ℤ) (a c : SeqCandidate) :
    betterCandidate t a c = a ∨ betterCandidate t a c = c := by
  unfold betterCandidate
  split_ifs <;> simp

theorem betterCandidate_le_left (t : ℤ) (a c : SeqCandidate) :
    |(betterCandidate t a c).nodeord - t| ≤ |a.nodeord - t| := by
  unfold betterCandidate
  split_ifs with h1 h2
  · omega
  · omega
  · omega

theorem betterCandidate_le_right (t : ℤ) (a c : SeqCandidate) :
    |(betterCandidate t a c).nodeord - t| ≤ |c.nodeord - t| := by
  unfold betterCandidate
  split_ifs with h1 h2
  · omega
  · omega
  · omega

theorem betterCandidate_tie_left (t : ℤ) (a c : SeqCandidate)
    (h : |a.nodeord - t| = |(betterCandidate t a c).nodeord - t|) :
    (betterCandidate t a c).nodeord ≤ a.nodeord := by
  unfold betterCandidate at h ⊢
  split_ifs at h ⊢ with h1 h2
  · omega
  · omega
  · omega

theorem betterCandidate_tie_right (t : ℤ) (a c : SeqCandidate)
    (h : |c.nodeord - t| = |(betterCandidate t a c).nodeord - t|) :
    (betterCandidate t a c).nodeord ≤ c.nodeord := by
  unfold betterCandidate at h ⊢
  split_ifs at h ⊢ with h1 h2
  · omega
  · omega
  · push_neg at h2
    omega

/-- Invariant of the `pool.reduce` of `getDirection`: the fold result is
drawn from the seed or the list, minimizes the order difference there, and
among equal differences has the minimal order. -/
theorem foldl_better_spec (t : ℤ) (l : List SeqCandidate) (a : SeqCandidate) :
    (l.foldl (betterCandidate t) a = a ∨ l.foldl (betterCandidate t) a ∈ l) ∧
    |(l.foldl (betterCandidate t) a).nodeord - t| ≤ |a.nodeord - t| ∧
    (∀ c ∈ l, |(l.foldl (betterCandidate t) a).nodeord - t| ≤ |c.nodeord - t|) ∧
    (|a.nodeord - t| = |(l.foldl (betterCandidate t) a).nodeord - t| →
      (l.foldl (betterCandidate t) a).nodeord ≤ a.nodeord) ∧
    (∀ c ∈ l, |c.nodeord - t| = |(l.foldl (betterCandidate t) a).nodeord - t| →
      (l.foldl (betterCandidate t) a).nodeord ≤ c.nodeord) := by
  induction l generalizing a with
  | nil => simp
  | cons c l ih =>
    simp only [List.foldl_cons]
    obtain ⟨hmem, hle, hall, htiea, htieall⟩ := ih (betterCandidate t a c)
    have hbc := betterCandidate_cases t a c
    have hbl := betterCandidate_le_left t a c
    have hbr := betterCandidate_le_right t a c
    refine ⟨?_, le_trans hle hbl, ?_, ?_, ?_⟩
    · rcases hmem with h | h
      · rcases hbc with h2 | h2
        · left
          rw [h, h2]
        · right
          rw [h, h2]
          exact List.mem_cons_self c l
      · right
        exact List.mem_cons_of_mem c h
    · intro d hd
      rcases List.mem_cons.mp hd with rfl | hd
      · exact le_trans hle hbr
      · exact hall d hd
    · intro heq
      have e2 : |(betterCandidate t a c).nodeord - t| =
          |(l.foldl (betterCandidate t) (betterCandidate t a c)).nodeord - t| := by
        omega
      have e1 : |a.nodeord - t| = |(betterCandidate t a c).nodeord - t| := by
        omega
      exact le_trans (htiea e2) (betterCandidate_tie_left t a c e1)
    · intro d hd heq
      rcases List.mem_cons.mp hd with rfl | hd
      · have e2 : |(betterCandidate t a d).nodeord - t| =
            |(l.foldl (betterCandidate t) (betterCandidate t a d)).nodeord - t| := by
          omega
        have e1 : |d.nodeord - t| = |(betterCandidate t a d).nodeord - t| := by
          omega
        exact le_trans (htiea e2) (betterCandidate_tie_right t a d e1)
      · exact htieall d hd heq

/-- C6: for every non-empty candidate pool, the resolver's best-match
selection returns a pool member; if some candidate's sequence order equals
the observed order, the chosen candidate matches it exactly; otherwise the
chosen candidate minimizes the absolute order difference, and among
candidates with equal difference it has the smallest order value. -/
theorem C6_direction_best_match (pool : List SeqCandidate) (targetOrd : ℤ)
    (hne : pool ≠ []) :
    ∃ b, findBestMatch pool targetOrd = some b ∧ b ∈ pool ∧
      ((∃ c ∈ pool, c.nodeord = targetOrd) → b.nodeord = targetOrd) ∧
      ((¬ ∃ c ∈ pool, c.nodeord = targetOrd) →
        (∀ c ∈ pool, |b.nodeord - targetOrd| ≤ |c.nodeord - targetOrd|) ∧
        (∀ c ∈ pool, |c.nodeord - targetOrd| = |b.nodeord - targetOrd| →
          b.nodeord ≤ c.nodeord)) := by
  match pool, hne with
  | p0 :: rest, _ =>
    rw [findBestMatch]
    cases hfind : (p0 :: rest).find? (fun c => decide (c.nodeord = targetOrd)) with
    | some exact0 =>
      refine ⟨exact0, rfl, List.mem_of_find?_eq_some hfind, fun _ => ?_, ?_⟩
      · have := List.find?_some hfind
        simpa using this
      · intro hno
        exfalso
        exact hno ⟨exact0, List.mem_of_find?_eq_some hfind, by
          have := List.find?_some hfind
          simpa using this⟩
    | none =>
      obtain ⟨hmem, hle, hall, htiea, htieall⟩ :=
        foldl_better_spec targetOrd (p0 :: rest) p0
      refine ⟨(p0 :: rest).foldl (betterCandidate targetOrd) p0, rfl, ?_,
        fun hex => ?_, fun _ => ⟨hall, htieall⟩⟩
      · rcases hmem with h | h
        · rw [h]
          exact List.mem_cons_self p0 rest
        · exact h
      · exfalso
        obtain ⟨c, hc, hceq⟩ := hex
        have := List.find?_eq_none.mp hfind c hc
        simp at this
        exact this hceq

/-- C6 witness: a pool with no exact match for observed order 5; both
candidates differ by 2 and the one with the smaller order (3) is chosen. -/
theorem C6_direction_best_match_witness :
    ([⟨"A", 7, 1⟩, ⟨"B", 3, 0⟩] : List SeqCandidate) ≠ [] ∧
    ∃ b, findBestMatch [⟨"A", 7, 1⟩, ⟨"B", 3, 0⟩] 5 = some b ∧
      b ∈ ([⟨"A", 7, 1⟩, ⟨"B", 3, 0⟩] : List SeqCandidate) ∧
      ((∃ c ∈ ([⟨"A", 7, 1⟩, ⟨"B", 3, 0⟩] : List SeqCandidate),
        c.nodeord = 5) → b.nodeord = 5) ∧
      ((¬ ∃ c ∈ ([⟨"A", 7, 1⟩, ⟨"B", 3, 0⟩] : List SeqCandidate),
          c.nodeord = 5) →
        (∀ c ∈ ([⟨"A", 7, 1⟩, ⟨"B", 3, 0⟩] : List SeqCandidate),
          |b.nodeord - 5| ≤ |c.nodeord - 5|) ∧
        (∀ c ∈ ([⟨"A", 7, 1⟩, ⟨"B", 3, 0⟩] : List SeqCandidate),
          |c.nodeord - 5| = |b.nodeord - 5| → b.nodeord ≤ c.nodeord)) :=
  ⟨by decide, C6_direction_best_match [⟨"A", 7, 1⟩, ⟨"B", 3, 0⟩] 5 (by decide)⟩

/-! ## Claim C4 : swap heuristic symmetry -/

theorem getSquaredDistanceToPolyline_nonneg (bear : Coordinate → Coordinate → ℚ)
    (point : Coordinate) (polyline : List Coordinate) :
    0 ≤ getSquaredDistanceToPolyline bear point polyline := by
  simp only [getSquaredDistanceToPolyline]
  have h1 := mul_self_nonneg
    (point.1 - (snapToPolyline bear point polyline {}).position.1)
  have h2 := mul_self_nonneg
    (point.2 - (snapToPolyline bear point polyline {}).position.2)
  linarith

theorem calculateMeanSquaredError_nonneg (bear : Coordinate → Coordinate → ℚ)
    (points polyline : List Coordinate) (m : ℚ)
    (h : calculateMeanSquaredError bear points polyline = some m) : 0 ≤ m := by
  unfold calculateMeanSquaredError at h
  by_cases hc : points.length = 0 ∨ polyline.length < 2
  · rw [if_pos hc] at h
    exact absurd h (by simp)
  · rw [if_neg hc] at h
    have hm : m = ((points.map
        (fun p => getSquaredDistanceToPolyline bear p polyline)).sum) /
        (points.length : ℚ) := by
      injection h with h
      exact h.symm
    rw [hm]
    apply div_nonneg
    · apply List.sum_nonneg
      intro x hx
      obtain ⟨p, _, hp⟩ := List.mem_map.mp hx
      rw [← hp]
      exact getSquaredDistanceToPolyline_nonneg bear p polyline
    · positivity

/-- C4: for every route stop sequence, station map and pair of polylines,
if the swap heuristic concludes "swap needed", then re-running it with the
two polylines' labels exchanged concludes "no swap needed". -/
theorem C4_swap_heuristic_symmetry (bear : Coordinate → Coordinate → ℚ)
    (routeDetail : Option RouteDetail)
    (stationMap : Option (String → Option StationLocation))
    (up down : List Coordinate)
    (h : shouldSwapPolylines bear routeDetail stationMap up down = true) :
    shouldSwapPolylines bear routeDetail stationMap down up = false := by
  cases routeDetail with
  | none => simp [shouldSwapPolylines] at h
  | some d =>
    cases stationMap with
    | none => simp [shouldSwapPolylines] at h
    | some sm =>
      simp only [shouldSwapPolylines] at h ⊢
      by_cases hlen : up.length < 2 ∨ down.length < 2
      · rw [if_pos hlen] at h
        exact absurd h (by simp)
      · rw [if_neg hlen] at h
        rw [if_neg (by tauto : ¬ (down.length < 2 ∨ up.length < 2))]
        by_cases hstops : (collectStops d sm 1).length = 0 ∨
            (collectStops d sm 0).length = 0
        · rw [if_pos hstops] at h
          exact absurd h (by simp)
        · rw [if_neg hstops] at h
          rw [if_neg hstops]
          cases hA : calculateMeanSquaredError bear
              (sampleCoordinates (collectStops d sm 1)) up with
          | none => simp [hA] at h
          | some a =>
            cases hB : calculateMeanSquaredError bear
                (sampleCoordinates (collectStops d sm 1)) down with
            | none => simp [hA, hB] at h
            | some b =>
              cases hC : calculateMeanSquaredError bear
                  (sampleCoordinates (collectStops d sm 0)) up with
              | none => simp [hA, hB, hC] at h
              | some c2 =>
                cases hD : calculateMeanSquaredError bear
                    (sampleCoordinates (collectStops d sm 0)) down with
                | none => simp [hA, hB, hC, hD] at h
                | some d2 =>
                  rw [hA, hB, hC, hD] at h
                  have h' : (decide (b < a * SWAP_RATIO_SQ) &&
                      decide (c2 < d2 * SWAP_RATIO_SQ)) = true := h
                  simp only [Bool.and_eq_true, decide_eq_true_eq] at h'
                  have ha := calculateMeanSquaredError_nonneg bear
                    (sampleCoordinates (collectStops d sm 1)) up a hA
                  have hnot : ¬ (a < b * SWAP_RATIO_SQ) := by
                    simp only [SWAP_RATIO_SQ] at h' ⊢
                    intro hcon
                    linarith [h'.1]
                  show (decide (a < b * SWAP_RATIO_SQ) &&
                      decide (d2 < c2 * SWAP_RATIO_SQ)) = false
                  simp [hnot]

/-- Sample route detail for the swap-heuristic witness: one up stop "U",
one down stop "D". -/
def swapDemoDetail : RouteDetail := ⟨[⟨"U", 1, 1⟩, ⟨"D", 2, 0⟩]⟩

/-- Sample station map for the swap-heuristic witness: the up stop sits on
the down-labelled polyline and vice versa. -/
def swapDemoStations : String → Option StationLocation := fun s =>
  if s = "U" then some ⟨5, 1⟩ else if s = "D" then some ⟨5, 0⟩ else none

/-- Up-labelled polyline of the swap-heuristic witness. -/
def swapDemoUp : List Coordinate := [(0, 0), (10, 0)]

/-- Down-labelled polyline of the swap-heuristic witness. -/
def swapDemoDown : List Coordinate := [(0, 1), (10, 1)]

/-- Concrete evaluation: the mislabelled demo data make the heuristic
conclude "swap needed". -/
theorem swapDemo_evaluates_true :
    shouldSwapPolylines (fun _ _ => 0) (some swapDemoDetail)
      (some swapDemoStations) swapDemoUp swapDemoDown = true := by
  have hg1 : getSquaredDistanceToPolyline (fun _ _ => 0) (5, 1) swapDemoUp = 1 := by
    norm_num [getSquaredDistanceToPolyline, snapToPolyline, snapPointToPolyline,
      runScan, scanStep, scanInit, mkState, improves, dSqAt, projAt, tAt,
      segA, segB, List.range', swapDemoUp]
  have hg2 : getSquaredDistanceToPolyline (fun _ _ => 0) (5, 1) swapDemoDown = 0 := by
    norm_num [getSquaredDistanceToPolyline, snapToPolyline, snapPointToPolyline,
      runScan, scanStep, scanInit, mkState, improves, dSqAt, projAt, tAt,
      segA, segB, List.range', swapDemoDown]
  have hg3 : getSquaredDistanceToPolyline (fun _ _ => 0) (5, 0) swapDemoUp = 0 := by
    norm_num [getSquaredDistanceToPolyline, snapToPolyline, snapPointToPolyline,
      runScan, scanStep, scanInit, mkState, improves, dSqAt, projAt, tAt,
      segA, segB, List.range', swapDemoUp]
  have hg4 : getSquaredDistanceToPolyline (fun _ _ => 0) (5, 0) swapDemoDown = 1 := by
    norm_num [getSquaredDistanceToPolyline, snapToPolyline, snapPointToPolyline,
      runScan, scanStep, scanInit, mkState, improves, dSqAt, projAt, tAt,
      segA, segB, List.range', swapDemoDown]
  have hcs1 : collectStops swapDemoDetail swapDemoStations 1 = [(5, 1)] := by
    simp [collectStops, swapDemoDetail, swapDemoStations,
      List.filterMap_cons]
  have hcs0 : collectStops swapDemoDetail swapDemoStations 0 = [(5, 0)] := by
    simp [collectStops, swapDemoDetail, swapDemoStations,
      List.filterMap_cons]
  have hsamp1 : sampleCoordinates [((5 : ℚ), (1 : ℚ))] = [(5, 1)] := by
    norm_num [sampleCoordinates, MAX_SAMPLE_STOPS]
  have hsamp0 : sampleCoordinates [((5 : ℚ), (0 : ℚ))] = [(5, 0)] := by
    norm_num [sampleCoordinates, MAX_SAMPLE_STOPS]
  have hm1 : calculateMeanSquaredError (fun _ _ => 0) [(5, 1)] swapDemoUp =
      some 1 := by
    rw [calculateMeanSquaredError, if_neg (by norm_num [swapDemoUp])]
    norm_num [hg1]
  have hm2 : calculateMeanSquaredError (fun _ _ => 0) [(5, 1)] swapDemoDown =
      some 0 := by
    rw [calculateMeanSquaredError, if_neg (by norm_num [swapDemoDown])]
    norm_num [hg2]
  have hm3 : calculateMeanSquaredError (fun _ _ => 0) [(5, 0)] swapDemoUp =
      some 0 := by
    rw [calculateMeanSquaredError, if_neg (by norm_num [swapDemoUp])]
    norm_num [hg3]
  have hm4 : calculateMeanSquaredError (fun _ _ => 0) [(5, 0)] swapDemoDown =
      some 1 := by
    rw [calculateMeanSquaredError, if_neg (by norm_num [swapDemoDown])]
    norm_num [hg4]
  simp only [shouldSwapPolylines]
  rw [if_neg (by norm_num [swapDemoUp, swapDemoDown])]
  rw [hcs1, hcs0]
  rw [if_neg (by norm_num)]
  rw [hsamp1, hsamp0, hm1, hm2, hm3, hm4]
  norm_num [SWAP_RATIO_SQ]

/-! ## Claims C1, C2 : getSnappedPosition selection -/

theorem createCandidate_isValid (bear dist : Coordinate → Coordinate → ℚ)
    (raw : Coordinate) (siu sid sia : Option ℤ) (ti : Option ℤ) (isw : Bool)
    (rng : ℚ) (line : List Coordinate) (dir : ℤ) (c : SnapCandidate)
    (h : createCandidate bear dist raw siu sid sia ti isw rng line dir =
      some c) :
    c.isValid = decide (c.distance ≤ MAX_SNAP_DISTANCE_METERS) := by
  unfold createCandidate at h
  by_cases hl : line.length < 2
  · rw [if_pos hl] at h
    exact absurd h (by simp)
  · rw [if_neg hl] at h
    injection h with h
    rw [← h]

theorem chooseCandidate_api1 (cd : Option SnapCandidate) (c : SnapCandidate)
    (d : SnappedResult) (hv : c.isValid = true) :
    chooseCandidate (some 1) (some c) cd d = c.toResult := by
  unfold chooseCandidate
  rw [if_pos ⟨rfl, by simp [isValidOpt, hv]⟩]

theorem chooseCandidate_api0 (cu : Option SnapCandidate) (c : SnapCandidate)
    (d : SnappedResult) (hv : c.isValid = true) :
    chooseCandidate (some 0) cu (some c) d = c.toResult := by
  unfold chooseCandidate
  rw [if_neg (by rintro ⟨h1, -⟩; injection h1 with h1; omega),
    if_pos ⟨rfl, by simp [isValidOpt, hv]⟩]

theorem chooseCandidate_none_valid (api : Option ℤ)
    (cu cd : Option SnapCandidate) (d : SnappedResult)
    (hcu : isValidOpt cu = false) (hcd : isValidOpt cd = false) :
    chooseCandidate api cu cd d = d := by
  unfold chooseCandidate
  rw [if_neg (by simp [hcu]), if_neg (by simp [hcd]),
    if_neg (by simp [hcu]), if_neg (by simp [hcu]), if_neg (by simp [hcd])]

/-- C1: if the direction resolver returns direction code 1 (up) or 0 (down)
and that direction's snap candidate lies within the 50 m validity
threshold, `getSnappedPosition` returns that direction's snap candidate —
no condition at all is placed on the other direction's candidate, which may
be geometrically closer. -/
theorem C1_snap_trusts_api_direction (bear dist : Coordinate → Coordinate → ℚ)
    (bus : BusItem) (getDirection : String → ℤ → Option String → Option ℤ)
    (upPolyline downPolyline : List Coordinate) (options : GetSnappedOptions)
    (d : ℤ) (c : SnapCandidate)
    (hd : d = 0 ∨ d = 1)
    (hapi : getDirection bus.nodeid bus.nodeord bus.routeid = some d)
    (hcand : createCandidate bear dist (bus.gpslati, bus.gpslong)
      (getStopCoordIndex options.stopIndexMap bus.nodeid bus.nodeord (some 1))
      (getStopCoordIndex options.stopIndexMap bus.nodeid bus.nodeord (some 0))
      (getStopCoordIndex options.stopIndexMap bus.nodeid bus.nodeord none)
      options.turnIndex options.isSwapped options.snapIndexRange
      (if d = 1 then upPolyline else downPolyline) d = some c)
    (hvalid : c.distance ≤ MAX_SNAP_DISTANCE_METERS) :
    getSnappedPosition bear dist bus getDirection upPolyline downPolyline
      options = c.toResult := by
  have hv : c.isValid = true := by
    rw [createCandidate_isValid bear dist _ _ _ _ _ _ _ _ _ c hcand]
    exact decide_eq_true hvalid
  rcases hd with rfl | rfl
  · rw [if_neg (by norm_num)] at hcand
    simp only [getSnappedPosition]
    rw [hapi, hcand]
    exact chooseCandidate_api0 _ c _ hv
  · rw [if_pos rfl] at hcand
    simp only [getSnappedPosition]
    rw [hapi, hcand]
    exact chooseCandidate_api1 _ c _ hv

/-- C2 (amended): when both directions' candidates exist and both exceed
the 50 m threshold, `getSnappedPosition` returns the raw unprojected fix
unmodified with angle 0 and no segment index — but the returned direction
defaults to 0 (down/inbound) when the resolver is unresolved, and is the
resolver's code otherwise. -/
theorem C2_offroute_returns_raw_fix (bear dist : Coordinate → Coordinate → ℚ)
    (bus : BusItem) (getDirection : String → ℤ → Option String → Option ℤ)
    (upPolyline downPolyline : List Coordinate) (options : GetSnappedOptions)
    (cu cd : SnapCandidate)
    (hcu : createCandidate bear dist (bus.gpslati, bus.gpslong)
      (getStopCoordIndex options.stopIndexMap bus.nodeid bus.nodeord (some 1))
      (getStopCoordIndex options.stopIndexMap bus.nodeid bus.nodeord (some 0))
      (getStopCoordIndex options.stopIndexMap bus.nodeid bus.nodeord none)
      options.turnIndex options.isSwapped options.snapIndexRange
      upPolyline 1 = some cu)
    (hcd : createCandidate bear dist (bus.gpslati, bus.gpslong)
      (getStopCoordIndex options.stopIndexMap bus.nodeid bus.nodeord (some 1))
      (getStopCoordIndex options.stopIndexMap bus.nodeid bus.nodeord (some 0))
      (getStopCoordIndex options.stopIndexMap bus.nodeid bus.nodeord none)
      options.turnIndex options.isSwapped options.snapIndexRange
      downPolyline 0 = some cd)
    (hcu50 : MAX_SNAP_DISTANCE_METERS < cu.distance)
    (hcd50 : MAX_SNAP_DISTANCE_METERS < cd.distance) :
    getSnappedPosition bear dist bus getDirection upPolyline downPolyline
      options =
      { position := (bus.gpslati, bus.gpslong)
        angle := 0
        direction := (getDirection bus.nodeid bus.nodeord bus.routeid).getD 0
        segmentIndex := none } := by
  have hvu : cu.isValid = false := by
    rw [createCandidate_isValid bear dist _ _ _ _ _ _ _ _ _ cu hcu]
    simp only [decide_eq_false_iff_not, not_le]
    exact hcu50
  have hvd : cd.isValid = false := by
    rw [createCandidate_isValid bear dist _ _ _ _ _ _ _ _ _ cd hcd]
    simp only [decide_eq_false_iff_not, not_le]
    exact hcd50
  simp only [getSnappedPosition]
  rw [hcu, hcd,
    chooseCandidate_none_valid _ _ _ _ (by simp [isValidOpt, hvu])
      (by simp [isValidOpt, hvd])]

/-- C2 counterexample: the resolver is unresolved (returns `none` for every
stop) and both candidates are 100 m off-route, yet the returned direction
is the definite down/inbound code 0 — the code defaults to inbound when
unresolved, refuting "never inbound-by-default when unresolved". -/
theorem C2_counterexample_unresolved_defaults_down :
    ((fun (_ : String) (_ : ℤ) (_ : Option String) => (none : Option ℤ))
      "n" 1 none = none) ∧
    (getSnappedPosition (fun _ _ => 0) (fun _ _ => 100) ⟨0, 0, "n", 1, none⟩
      (fun _ _ _ => none) [(0, 0), (0, 1)] [(1, 0), (1, 1)] {}).direction
      = 0 := by
  refine ⟨rfl, ?_⟩
  have hcu : createCandidate (fun _ _ => (0 : ℚ)) (fun _ _ => (100 : ℚ))
      ((0 : ℚ), (0 : ℚ)) none none none none false DEFAULT_SNAP_INDEX_RANGE
      [(0, 0), (0, 1)] 1 =
      some { position := (0, 0), angle := 0, direction := 1,
             segmentIndex := some 0, distance := 100, isValid := false } := by
    norm_num [createCandidate, getSegmentHint, snapPointToPolyline, runScan,
      scanStep, scanInit, mkState, improves, dSqAt, projAt, tAt, segA, segB,
      clampIndex, List.range', MAX_SNAP_DISTANCE_METERS,
      DEFAULT_SNAP_INDEX_RANGE]
  have hcd : createCandidate (fun _ _ => (0 : ℚ)) (fun _ _ => (100 : ℚ))
      ((0 : ℚ), (0 : ℚ)) none none none none false DEFAULT_SNAP_INDEX_RANGE
      [(1, 0), (1, 1)] 0 =
      some { position := (1, 0), angle := 0, direction := 0,
             segmentIndex := some 0, distance := 100, isValid := false } := by
    norm_num [createCandidate, getSegmentHint, snapPointToPolyline, runScan,
      scanStep, scanInit, mkState, improves, dSqAt, projAt, tAt, segA, segB,
      clampIndex, List.range', MAX_SNAP_DISTANCE_METERS,
      DEFAULT_SNAP_INDEX_RANGE]
  simp only [getSnappedPosition, getStopCoordIndex]
  rw [hcu, hcd]
  norm_num [chooseCandidate, isValidOpt]

/-- C1 witness: the resolver says up (1), the up candidate is at distance 0
(valid), and the result is exactly the up candidate even though the down
polyline is far away. -/
theorem C1_snap_trusts_api_direction_witness :
    ((1 : ℤ) = 0 ∨ (1 : ℤ) = 1) ∧
    ((fun (_ : String) (_ : ℤ) (_ : Option String) => some (1 : ℤ))
      "n" 1 none = some 1) ∧
    (createCandidate (fun _ _ => 7) (fun _ _ => 0) ((0 : ℚ), (0 : ℚ))
      none none none none false DEFAULT_SNAP_INDEX_RANGE
      (if (1 : ℤ) = 1 then [(0, 0), (0, 1)] else [(5, 5), (5, 6)]) 1 =
      some { position := (0, 0), angle := 7, direction := 1,
             segmentIndex := some 0, distance := 0, isValid := true }) ∧
    ((0 : ℚ) ≤ MAX_SNAP_DISTANCE_METERS) ∧
    getSnappedPosition (fun _ _ => 7) (fun _ _ => 0) ⟨0, 0, "n", 1, none⟩
      (fun _ _ _ => some 1) [(0, 0), (0, 1)] [(5, 5), (5, 6)] {} =
      SnapCandidate.toResult
        { position := (0, 0), angle := 7, direction := 1,
          segmentIndex := some 0, distance := 0, isValid := true } := by
  have hcand : createCandidate (fun _ _ => 7) (fun _ _ => 0)
      ((0 : ℚ), (0 : ℚ)) none none none none false DEFAULT_SNAP_INDEX_RANGE
      (if (1 : ℤ) = 1 then [(0, 0), (0, 1)] else [(5, 5), (5, 6)]) 1 =
      some { position := (0, 0), angle := 7, direction := 1,
             segmentIndex := some 0, distance := 0, isValid := true } := by
    rw [if_pos rfl]
    norm_num [createCandidate, getSegmentHint, snapPointToPolyline, runScan,
      scanStep, scanInit, mkState, improves, dSqAt, projAt, tAt, segA, segB,
      clampIndex, List.range', MAX_SNAP_DISTANCE_METERS,
      DEFAULT_SNAP_INDEX_RANGE]
  refine ⟨Or.inr rfl, rfl, hcand, by norm_num [MAX_SNAP_DISTANCE_METERS], ?_⟩
  exact C1_snap_trusts_api_direction (fun _ _ => 7) (fun _ _ => 0)
    ⟨0, 0, "n", 1, none⟩ (fun _ _ _ => some 1) [(0, 0), (0, 1)]
    [(5, 5), (5, 6)] {} 1
    { position := (0, 0), angle := 7, direction := 1,
      segmentIndex := some 0, distance := 0, isValid := true }
    (Or.inr rfl) rfl hcand (by norm_num [MAX_SNAP_DISTANCE_METERS])

/-- C2 witness: the amended off-route behaviour at a concrete input whose
resolver is unresolved: raw position, angle 0, no segment index, direction
defaulting to 0. -/
theorem C2_offroute_returns_raw_fix_witness :
    (createCandidate (fun _ _ => 0) (fun _ _ => 100) ((0 : ℚ), (0 : ℚ))
      none none none none false DEFAULT_SNAP_INDEX_RANGE
      [(0, 0), (0, 1)] 1 =
      some { position := (0, 0), angle := 0, direction := 1,
             segmentIndex := some 0, distance := 100, isValid := false }) ∧
    (createCandidate (fun _ _ => 0) (fun _ _ => 100) ((0 : ℚ), (0 : ℚ))
      none none none none false DEFAULT_SNAP_INDEX_RANGE
      [(1, 0), (1, 1)] 0 =
      some { position := (1, 0), angle := 0, direction := 0,
             segmentIndex := some 0, distance := 100, isValid := false }) ∧
    (MAX_SNAP_DISTANCE_METERS < (100 : ℚ)) ∧
    getSnappedPosition (fun _ _ => 0) (fun _ _ => 100) ⟨0, 0, "n", 1, none⟩
      (fun _ _ _ => none) [(0, 0), (0, 1)] [(1, 0), (1, 1)] {} =
      { position := ((0 : ℚ), (0 : ℚ))
        angle := 0
        direction := ((fun (_ : String) (_ : ℤ) (_ : Option String) =>
          (none : Option ℤ)) "n" 1 none).getD 0
        segmentIndex := none } := by
  have hcu : createCandidate (fun _ _ => (0 : ℚ)) (fun _ _ => (100 : ℚ))
      ((0 : ℚ), (0 : ℚ)) none none none none false DEFAULT_SNAP_INDEX_RANGE
      [(0, 0), (0, 1)] 1 =
      some { position := (0, 0), angle := 0, direction := 1,
             segmentIndex := some 0, distance := 100, isValid := false } := by
    norm_num [createCandidate, getSegmentHint, snapPointToPolyline, runScan,
      scanStep, scanInit, mkState, improves, dSqAt, projAt, tAt, segA, segB,
      clampIndex, List.range', MAX_SNAP_DISTANCE_METERS,
      DEFAULT_SNAP_INDEX_RANGE]
  have hcd : createCandidate (fun _ _ => (0 : ℚ)) (fun _ _ => (100 : ℚ))
      ((0 : ℚ), (0 : ℚ)) none none none none false DEFAULT_SNAP_INDEX_RANGE
      [(1, 0), (1, 1)] 0 =
      some { position := (1, 0), angle := 0, direction := 0,
             segmentIndex := some 0, distance := 100, isValid := false } := by
    norm_num [createCandidate, getSegmentHint, snapPointToPolyline, runScan,
      scanStep, scanInit, mkState, improves, dSqAt, projAt, tAt, segA, segB,
      clampIndex, List.range', MAX_SNAP_DISTANCE_METERS,
      DEFAULT_SNAP_INDEX_RANGE]
  refine ⟨hcu, hcd, by norm_num [MAX_SNAP_DISTANCE_METERS], ?_⟩
  exact C2_offroute_returns_raw_fix (fun _ _ => 0) (fun _ _ => 100)
    ⟨0, 0, "n", 1, none⟩ (fun _ _ _ => none) [(0, 0), (0, 1)]
    [(1, 0), (1, 1)] {}
    { position := (0, 0), angle := 0, direction := 1,
      segmentIndex := some 0, distance := 100, isValid := false }
    { position := (1, 0), angle := 0, direction := 0,
      segmentIndex := some 0, distance := 100, isValid := false }
    hcu hcd (by norm_num [MAX_SNAP_DISTANCE_METERS])
    (by norm_num [MAX_SNAP_DISTANCE_METERS])

/-! ## Claims C8, C9 : CacheManager.getOrFetch -/

theorem mapGet_map_replace_of_isSome {β : Type} (m : List (String × β))
    (k : String) (v : β) (h : (mapGet m k).isSome) :
    mapGet (m.map (fun p => if p.1 = k then (k, v) else p)) k = some v := by
  induction m with
  | nil => simp [mapGet] at h
  | cons p rest ih =>
    obtain ⟨a, b⟩ := p
    by_cases hk : a = k
    · subst hk
      have hhead : (if ((a, b) : String × β).1 = a then (a, v) else (a, b)) =
          (a, v) := by simp
      rw [List.map_cons, hhead]
      simp [mapGet]
    · rw [mapGet, if_neg hk] at h
      have hhead : (if ((a, b) : String × β).1 = k then (k, v) else (a, b)) =
          (a, b) := by simp [hk]
      rw [List.map_cons, hhead]
      simp only [mapGet]
      rw [if_neg hk]
      exact ih h

theorem mapGet_append_single {β : Type} (m : List (String × β))
    (k : String) (v : β) (h : mapGet m k = none) :
    mapGet (m ++ [(k, v)]) k = some v := by
  induction m with
  | nil => simp [mapGet]
  | cons p rest ih =>
    by_cases hk : p.1 = k
    · rw [mapGet, if_pos hk] at h
      exact absurd h (by simp)
    · rw [mapGet, if_neg hk] at h
      rw [List.cons_append, mapGet, if_neg hk]
      exact ih h

theorem mapGet_mapSet_self {β : Type} (m : List (String × β))
    (k : String) (v : β) : mapGet (mapSet m k v) k = some v := by
  unfold mapSet
  by_cases h : (mapGet m k).isSome
  · rw [if_pos h]
    exact mapGet_map_replace_of_isSome m k v h
  · rw [if_neg h]
    exact mapGet_append_single m k v (by
      cases hg : mapGet m k with
      | none => rfl
      | some w => rw [hg] at h; exact absurd rfl h)

theorem mapGet_mapDelete_self {β : Type} (m : List (String × β))
    (k : String) : mapGet (mapDelete m k) k = none := by
  induction m with
  | nil => rfl
  | cons p rest ih =>
    by_cases hk : p.1 = k
    · simp only [mapDelete, List.filter_cons] at ih ⊢
      rw [if_neg (by simp [hk])]
      exact ih
    · simp only [mapDelete, List.filter_cons] at ih ⊢
      rw [if_pos (by simp [hk]), mapGet, if_neg hk]
      exact ih

theorem cmSet_cache_get {T : Type} (s : CacheState T) (now : ℕ)
    (key : String) (value : T) :
    mapGet (cmSet s now key value).cache key = some value := by
  unfold cmSet
  exact mapGet_mapSet_self _ key value

/-- C8: while a fetch for a key is pending, a further `getOrFetch` for the
same key returns the very promise stored for the key, does not invoke its
producer (the outcome is `joinedPending`, the only producer-invoking
outcome being `startedFetch`) and leaves the state untouched; and once the
fetch resolves, the value is memoized in the cache, so a later `getOrFetch`
returns it as a cache hit without fetching. -/
theorem C8_getOrFetch_dedup_and_memoize {T E : Type} (s : CacheState T)
    (now now2 now3 : ℕ) (key : String) (pid : ℕ) (v : T)
    (hc : mapGet s.cache key = none)
    (hp : mapGet s.pendingRequests key = some pid) :
    getOrFetch s now key = (.joinedPending pid, s) ∧
    mapGet ((settleFetch s now2 key (.ok v : Except E T)).1).cache key =
      some v ∧
    (getOrFetch ((settleFetch s now2 key (.ok v : Except E T)).1) now3
      key).1 = .cached v := by
  have hcache : mapGet ((settleFetch s now2 key
      (.ok v : Except E T)).1).cache key = some v := by
    simp only [settleFetch]
    exact cmSet_cache_get s now2 key v
  refine ⟨?_, hcache, ?_⟩
  · simp only [getOrFetch, hc, hp]
  · simp only [getOrFetch, hcache]

/-- C9: when the producer of a freshly started fetch rejects, the settled
result of the shared promise is the rejection (observed by every caller
awaiting that key), nothing is cached and the cache and access-time maps
are unchanged, the pending entry for the key is removed, and a subsequent
`getOrFetch` for the same key starts a new fetch, invoking its producer
again. -/
theorem C9_getOrFetch_rejection_resets {T E : Type} (s : CacheState T)
    (now now2 now3 : ℕ) (key : String) (e : E)
    (hc : mapGet s.cache key = none)
    (hp : mapGet s.pendingRequests key = none) :
    (getOrFetch s now key).1 = .startedFetch s.nextPromiseId ∧
    (settleFetch ((getOrFetch s now key).2) now2 key
      (.error e : Except E T)).2 = .error e ∧
    (settleFetch ((getOrFetch s now key).2) now2 key
      (.error e : Except E T)).1.cache = s.cache ∧
    (settleFetch ((getOrFetch s now key).2) now2 key
      (.error e : Except E T)).1.accessTimes = s.accessTimes ∧
    mapGet (settleFetch ((getOrFetch s now key).2) now2 key
      (.error e : Except E T)).1.pendingRequests key = none ∧
    (getOrFetch (settleFetch ((getOrFetch s now key).2) now2 key
      (.error e : Except E T)).1 now3 key).1 =
      .startedFetch (settleFetch ((getOrFetch s now key).2) now2 key
        (.error e : Except E T)).1.nextPromiseId := by
  have hs1 : (getOrFetch s now key).2 =
      { s with
        pendingRequests := mapSet s.pendingRequests key s.nextPromiseId
        nextPromiseId := s.nextPromiseId + 1 } := by
    simp only [getOrFetch, hc, hp]
  have hpend : mapGet (settleFetch ((getOrFetch s now key).2) now2 key
      (.error e : Except E T)).1.pendingRequests key = none := by
    simp only [settleFetch]
    exact mapGet_mapDelete_self _ key
  refine ⟨by simp only [getOrFetch, hc, hp], rfl, ?_, ?_, hpend, ?_⟩
  · simp only [settleFetch, hs1]
  · simp only [settleFetch, hs1]
  · have hcache2 : mapGet (settleFetch ((getOrFetch s now key).2) now2 key
        (.error e : Except E T)).1.cache key = none := by
      simp only [settleFetch, hs1]
      exact hc
    set s2 := (settleFetch ((getOrFetch s now key).2) now2 key
      (.error e : Except E T)).1 with hs2
    simp only [getOrFetch, hcache2, hpend]

/-- C8 witness: a cache with a pending promise 5 for "k"; joining returns
promise 5 unchanged, and after a successful settle with value 42 the key is
a cache hit. -/
theorem C8_getOrFetch_dedup_and_memoize_witness :
    (mapGet (([] : List (String × ℕ))) "k" = none) ∧
    (mapGet [("k", 5)] "k" = some 5) ∧
    (getOrFetch (⟨[], [("k", 5)], [], 100, 6⟩ : CacheState ℕ) 0 "k" =
      (.joinedPending 5, ⟨[], [("k", 5)], [], 100, 6⟩) ∧
    mapGet ((settleFetch (⟨[], [("k", 5)], [], 100, 6⟩ : CacheState ℕ) 1 "k"
      (.ok 42 : Except Unit ℕ)).1).cache "k" = some 42 ∧
    (getOrFetch ((settleFetch (⟨[], [("k", 5)], [], 100, 6⟩ : CacheState ℕ)
      1 "k" (.ok 42 : Except Unit ℕ)).1) 2 "k").1 = .cached 42) :=
  ⟨rfl, by decide,
    C8_getOrFetch_dedup_and_memoize (⟨[], [("k", 5)], [], 100, 6⟩ :
      CacheState ℕ) 0 1 2 "k" 5 42 rfl (by decide)⟩

/-- C9 witness: an empty cache; the fetch for "k" starts as promise 6,
its rejection removes the pending entry, leaves the cache untouched and
the next `getOrFetch` starts a fresh fetch. -/
theorem C9_getOrFetch_rejection_resets_witness :
    (mapGet (([] : List (String × ℕ))) "k" = none) ∧
    ((getOrFetch (⟨[], [], [], 100, 6⟩ : CacheState ℕ) 0 "k").1 =
      .startedFetch 6 ∧
    (settleFetch ((getOrFetch (⟨[], [], [], 100, 6⟩ : CacheState ℕ) 0
      "k").2) 1 "k" (.error () : Except Unit ℕ)).2 = .error () ∧
    (settleFetch ((getOrFetch (⟨[], [], [], 100, 6⟩ : CacheState ℕ) 0
      "k").2) 1 "k" (.error () : Except Unit ℕ)).1.cache = [] ∧
    (settleFetch ((getOrFetch (⟨[], [], [], 100, 6⟩ : CacheState ℕ) 0
      "k").2) 1 "k" (.error () : Except Unit ℕ)).1.accessTimes = [] ∧
    mapGet (settleFetch ((getOrFetch (⟨[], [], [], 100, 6⟩ : CacheState ℕ)
      0 "k").2) 1 "k" (.error () : Except Unit ℕ)).1.pendingRequests "k" =
      none ∧
    (getOrFetch (settleFetch ((getOrFetch (⟨[], [], [], 100, 6⟩ :
      CacheState ℕ) 0 "k").2) 1 "k" (.error () : Except Unit ℕ)).1 2
      "k").1 =
      .startedFetch (settleFetch ((getOrFetch (⟨[], [], [], 100, 6⟩ :
        CacheState ℕ) 0 "k").2) 1 "k"
        (.error () : Except Unit ℕ)).1.nextPromiseId) :=
  ⟨rfl, C9_getOrFetch_rejection_resets (⟨[], [], [], 100, 6⟩ :
    CacheState ℕ) 0 1 2 "k" () rfl rfl⟩

/-- C4 witness: on the mislabelled demo data the heuristic concludes "swap",
and with the polyline labels exchanged it concludes "no swap". -/
theorem C4_swap_heuristic_symmetry_witness :
    shouldSwapPolylines (fun _ _ => 0) (some swapDemoDetail)
      (some swapDemoStations) swapDemoUp swapDemoDown = true ∧
    shouldSwapPolylines (fun _ _ => 0) (some swapDemoDetail)
      (some swapDemoStations) swapDemoDown swapDemoUp = false :=
  ⟨swapDemo_evaluates_true,
    C4_swap_heuristic_symmetry (fun _ _ => 0) (some swapDemoDetail)
      (some swapDemoStations) swapDemoUp swapDemoDown swapDemo_evaluates_true⟩

end WBus
